import Mathlib

/-!
# basler-sdk samples: tile geometry, window slots, the bitmap scan and the contour loop

A shallow embedding of the arithmetic and the loops of
`cpp sample/GUI_ImageWindow.cpp`, `FindOnePoint.cpp` and `pylon_opencv_demo.cpp`.

* `uint32_t` values are natural numbers below `2 ^ 32`; every `uint32_t`
  operation of the source is followed by an explicit reduction modulo `2 ^ 32`.
* `size_t` values are natural numbers reduced modulo `2 ^ 64`; the only `size_t`
  values of the source are array and window indices, which stay below 32.
* A counted `for` loop of the source is `forLoop`, which tests the loop
  condition before every iteration, exactly like the C++ statement.
* Calls into the vendor SDK (`Create`, `GetAoi`, `GetPixel`, `cout <<`) are not
  executed: the arguments the source passes to them are recorded.
-/

namespace BaslerSdk

/-! ## Machine arithmetic -/

/-- Wrap a natural number to the range of `uint32_t`. -/
def u32 (n : Nat) : Nat := n % 2 ^ 32

/-- Subtraction of two `uint32_t` values, wrapping around below zero as the C++
unsigned subtraction does. -/
def u32sub (a b : Nat) : Nat := (a + (2 ^ 32 - b % 2 ^ 32)) % 2 ^ 32

/-- Wrap a natural number to the range of `size_t` (64 bit). -/
def usize (n : Nat) : Nat := n % 2 ^ 64

/-- Subtraction of two `size_t` values, wrapping around below zero. -/
def usizeSub (a b : Nat) : Nat := (a + (2 ^ 64 - b % 2 ^ 64)) % 2 ^ 64

/-- The statement `for (i = start; i < n; ++i) body` acting on a state: the
condition `i < n` is tested before each iteration. The counter is incremented
only while it is below the bound, so a `uint32_t` counter never wraps. -/
def forLoop {σ : Type} (n : Nat) (body : Nat → σ → σ) (i : Nat) (s : σ) : σ :=
  if i < n then forLoop n body (i + 1) (body i s) else s
termination_by n - i

/-! ## GUI_ImageWindow.cpp: constants (lines 39-48) -/

def cNumTilesX : Nat := 3
def cNumTilesY : Nat := 2
def cWindowBorderSizeX : Nat := 25
def cWindowBorderSizeY : Nat := 125
def cScreenStartX : Nat := 40
def cScreenStartY : Nat := 40
def cMaxIndex : Nat := 31
def cNumWindows : Nat := usize (u32 (cNumTilesY * cNumTilesX))
def cMaxWidth : Nat := 640
def cMaxHeight : Nat := 480

/-- What the tiling code reads from a grabbed image: `GetWidth()`, `GetHeight()`
and the values of `GetPixelIncrementX` and `GetPixelIncrementY` at its pixel
type. The two SDK functions are not part of the repository, so their results
are carried as data. All four are `uint32_t`. -/
structure Image where
  width : Nat
  height : Nat
  pixelIncrementX : Nat
  pixelIncrementY : Nat
deriving DecidableEq, Repr

/-- The image as the claims about the tiling loop take it: all four values fit
`uint32_t`, width and height are positive, the pixel increments are at least 1. -/
def Image.WellFormed (img : Image) : Prop :=
  0 < img.width ∧ img.width < 2 ^ 32 ∧ 0 < img.height ∧ img.height < 2 ^ 32 ∧
  1 ≤ img.pixelIncrementX ∧ img.pixelIncrementX < 2 ^ 32 ∧
  1 ≤ img.pixelIncrementY ∧ img.pixelIncrementY < 2 ^ 32

instance (img : Image) : Decidable img.WellFormed := by
  unfold Image.WellFormed; infer_instance

/-! ## GUI_ImageWindow.cpp: tile sizes (lines 81-87) -/

/-- Line 81: `min( image.GetWidth(), cMaxWidth) / cNumTilesX`. -/
def rawTileWidth (img : Image) : Nat := min img.width cMaxWidth / cNumTilesX

/-- Line 82: `min( image.GetHeight(), cMaxHeight) / cNumTilesY`. -/
def rawTileHeight (img : Image) : Nat := min img.height cMaxHeight / cNumTilesY

/-- Lines 81 and 83: the tile width after
`imageTileWidth -= imageTileWidth % GetPixelIncrementX(...)`. -/
def imageTileWidth (img : Image) : Nat :=
  u32sub (rawTileWidth img) (rawTileWidth img % img.pixelIncrementX)

/-- Lines 82 and 84: the tile height after
`imageTileHeight -= imageTileWidth % GetPixelIncrementY(...)`. The remainder
subtracted is that of the (already aligned) tile WIDTH, as the source has it. -/
def imageTileHeight (img : Image) : Nat :=
  u32sub (rawTileHeight img) (imageTileWidth img % img.pixelIncrementY)

/-- Line 86. -/
def windowTileWidth (img : Image) : Nat := u32 (imageTileWidth img + cWindowBorderSizeX)

/-- Line 87. -/
def windowTileHeight (img : Image) : Nat := u32 (imageTileHeight img + cWindowBorderSizeY)

/-! ## GUI_ImageWindow.cpp: the body of the tile loop (lines 94-127) -/

/-- The arguments of one `GetAoi` call (line 115). -/
structure Aoi where
  topLeftX : Nat
  topLeftY : Nat
  width : Nat
  height : Nat
deriving DecidableEq, Repr

/-- The arguments of one `Create` call (lines 104-109), as the `uint32_t` and
`size_t` values of the argument expressions. -/
structure CreateArgs where
  winIndex : Nat
  x : Nat
  y : Nat
  nWidth : Nat
  nHeight : Nat
deriving DecidableEq, Repr

/-- Line 94: `size_t arrayIndex = indexTileY * cNumTilesX + indexTileX`. -/
def arrayIndex (indexTileX indexTileY : Nat) : Nat :=
  usize (u32 (u32 (indexTileY * cNumTilesX) + indexTileX))

/-- Line 103: `size_t windowIndex = cMaxIndex - arrayIndex`. -/
def windowIndex (arrIdx : Nat) : Nat := usizeSub (usize cMaxIndex) arrIdx

/-- Lines 104-109: the arguments handed to `Create` for a cell. -/
def createArgs (img : Image) (indexTileX indexTileY : Nat) : CreateArgs :=
  { winIndex := windowIndex (arrayIndex indexTileX indexTileY)
    x := u32 (cScreenStartX + u32 (indexTileX * windowTileWidth img))
    y := u32 (cScreenStartY + u32 (indexTileY * windowTileHeight img))
    nWidth := windowTileWidth img
    nHeight := windowTileHeight img }

/-- Line 115: the arguments handed to `GetAoi` for a cell. -/
def getAoi (img : Image) (indexTileX indexTileY : Nat) : Aoi :=
  { topLeftX := u32 (indexTileX * imageTileWidth img)
    topLeftY := u32 (indexTileY * imageTileHeight img)
    width := imageTileWidth img
    height := imageTileHeight img }

/-- A pixel `(x, y)` belongs to the half-open rectangle of an area of interest. -/
def Aoi.Contains (a : Aoi) (x y : Nat) : Prop :=
  a.topLeftX ≤ x ∧ x < a.topLeftX + a.width ∧ a.topLeftY ≤ y ∧ y < a.topLeftY + a.height

instance (a : Aoi) (x y : Nat) : Decidable (a.Contains x y) := by
  unfold Aoi.Contains; infer_instance

/-- What one pass through the loop body did: which element of `imageWindows` it
used, the `Create` call if there was one, the final value of `windowCreated`,
and the tile requested from `GetAoi` (then set and shown on that window). -/
structure TileStep where
  indexTileX : Nat
  indexTileY : Nat
  arrayIndex : Nat
  created : Option CreateArgs
  windowCreated : Bool
  tile : Aoi
deriving DecidableEq, Repr

/-- The state the grab loop carries: `valid[i]` is `imageWindows[i].IsValid()`,
`log` the loop bodies executed so far, oldest first. -/
structure WindowState where
  valid : List Bool
  log : List TileStep
deriving DecidableEq, Repr

/-- Lines 94-127, one pass of the loop body. `IsValid` is modelled by the flag
of the array element: `Create` sets it and nothing else in the loop touches it. -/
def tileBody (img : Image) (indexTileX indexTileY : Nat) (s : WindowState) : WindowState :=
  let arrIdx := arrayIndex indexTileX indexTileY
  if !(s.valid.getD arrIdx false) then
    { valid := s.valid.set arrIdx true
      log := s.log ++ [{ indexTileX := indexTileX, indexTileY := indexTileY,
                         arrayIndex := arrIdx,
                         created := some (createArgs img indexTileX indexTileY),
                         windowCreated := true,
                         tile := getAoi img indexTileX indexTileY }] }
  else
    { valid := s.valid
      log := s.log ++ [{ indexTileX := indexTileX, indexTileY := indexTileY,
                         arrayIndex := arrIdx,
                         created := none,
                         windowCreated := false,
                         tile := getAoi img indexTileX indexTileY }] }

/-- Lines 90-129: the two nested loops over the tiles of one grabbed image,
`indexTileX` outside and `indexTileY` inside. -/
def showTiles (img : Image) (s : WindowState) : WindowState :=
  forLoop cNumTilesX
    (fun indexTileX s1 =>
      forLoop cNumTilesY (fun indexTileY s2 => tileBody img indexTileX indexTileY s2) 0 s1)
    0 s

/-- Line 51: the array of `cNumWindows` default-constructed image windows, none
of them valid yet. -/
def imageWindows : List Bool := List.replicate cNumWindows false

/-- The tiles of one grabbed image in the order the loop requests them, starting
from given window flags. -/
def frameSteps (img : Image) (valid : List Bool) : List TileStep :=
  (showTiles img { valid := valid, log := [] }).log

/-- Lines 66-135 for a sequence of successfully grabbed images: the window
flags are carried from one image to the next, the steps of each image are
collected separately (one list per image). -/
def grabLoop : List Image → List Bool → List (List TileStep)
  | [], _ => []
  | img :: rest, valid =>
    let s := showTiles img { valid := valid, log := [] }
    s.log :: grabLoop rest s.valid

/-- Window flags after a sequence of successfully grabbed images. -/
def grabLoopValid : List Image → List Bool → List Bool
  | [], valid => valid
  | img :: rest, valid => grabLoopValid rest (showTiles img { valid := valid, log := [] }).valid

/-- The record the loop body appends for a cell when `IsValid` returned
`isValid`: both branches of `tileBody` in one expression. -/
def stepOf (img : Image) (tx ty : Nat) (isValid : Bool) : TileStep :=
  { indexTileX := tx, indexTileY := ty, arrayIndex := arrayIndex tx ty,
    created := if isValid then none else some (createArgs img tx ty),
    windowCreated := !isValid,
    tile := getAoi img tx ty }

/-- Number of `Create` calls for the array element `slot` over a run, given the
steps of each image. -/
def createCount (slot : Nat) (frames : List (List TileStep)) : Nat :=
  (frames.flatten.filter (fun t => decide (t.arrayIndex = slot) && t.windowCreated)).length

/-! ## FindOnePoint.cpp -/

/-- The channels read from a `Color` by `GetRed()`, `GetGreen()`, `GetBlue()`. -/
structure Color where
  red : Nat
  green : Nat
  blue : Nat
deriving DecidableEq, Repr

/-- What the scan reads from the bitmap: `GetWidth()`, `GetHeight()` and
`GetPixel(x, y, &color)`. -/
structure Bitmap where
  width : Nat
  height : Nat
  getPixel : Nat → Nat → Color

/-- Lines 28-30: the condition under which a pixel is printed. -/
def nearWhite (color : Color) : Bool :=
  decide (color.red > 200) && decide (color.green > 200) && decide (color.blue > 200)

/-- Lines 25-34: the two nested loops, `y` outside and `x` inside. The output is
the list of the coordinates written to `cout`, one line `x,y` each, oldest first. -/
def findOnePoint (bmp : Bitmap) : List (Nat × Nat) :=
  forLoop bmp.height
    (fun y out =>
      forLoop bmp.width
        (fun x out => if nearWhite (bmp.getPixel x y) then out ++ [(x, y)] else out)
        0 out)
    0 []

/-! ## pylon_opencv_demo.cpp: the contour loop (lines 141-157) -/

/-- A `cv::Point`: integer pixel coordinates. -/
structure Point where
  x : Int
  y : Int
deriving DecidableEq, Repr

/-- One element of `contours`: a `vector<Point>`. -/
abbrev Contour := List Point

/-- The OpenCV functions the contour loop calls, which are not part of the
repository: the `width` field of `boundingRect(c)` (an `int`), and the values of
`contourArea(c)` and `arcLength(c, true)` as stored in the `float` variables
`area` and `length`. The type `α` stands for `float`. -/
structure CvOps (α : Type) where
  boundingRectWidth : Contour → Int
  contourArea : Contour → α
  arcLength : Contour → α

/-- What the loop body does for a contour that is not skipped: the index passed
to `drawContours` (line 147), the two numbers printed by `printf` (lines 153-154)
and the contour written to `cout` (line 156). -/
structure ContourReport (α : Type) where
  index : Nat
  area : α
  length : α
  printed : Contour
deriving DecidableEq, Repr

/-- Lines 141-157: the loop over `contours`, with `cols` the value of
`openCvImage.cols`. `cols / 2` is the `int` division of C++, which truncates.
Line 156 writes `("...", contours[0])`, a comma expression whose value is
`contours[0]`. -/
def contourLoop {α : Type} (ops : CvOps α) (cols : Int) (contours : List Contour) :
    List (ContourReport α) :=
  forLoop contours.length
    (fun i out =>
      if ops.boundingRectWidth (contours.getD i []) < Int.tdiv cols 2 then out
      else
        out ++ [{ index := i,
                  area := ops.contourArea (contours.getD i []),
                  length := ops.arcLength (contours.getD i []),
                  printed := contours.getD 0 [] }])
    0 []

/-- The horizontal extent of a set of integer points, `max x - min x + 1`; 0 for
no points. It stands for the width of OpenCV's up-right bounding rectangle in
the worked examples. -/
def spanWidth (c : Contour) : Int :=
  match c with
  | [] => 0
  | p :: ps => (ps.foldl (fun m q => max m q.x) p.x) - (ps.foldl (fun m q => min m q.x) p.x) + 1

/-- Operations for the worked examples: the bounding width is `spanWidth`, and
the area and the perimeter of a contour are kept symbolic, as the contour they
were computed from. -/
def exampleOps : CvOps Contour :=
  { boundingRectWidth := spanWidth, contourArea := fun c => c, arcLength := fun c => c }

/-! ## The layout as the specification words it -/

/-- Reference layout, step 3 of `computeTileLayout` for the width:
`rawTileWidth − (rawTileWidth mod alignX)`. -/
def specAlignedTileWidth (img : Image) : Nat :=
  min img.width 640 / 3 - (min img.width 640 / 3) % img.pixelIncrementX

/-- Reference layout, step 3 of `computeTileLayout` for the height:
`rawTileHeight − (rawTileHeight mod alignY)`, aligned with its own increment. -/
def specAlignedTileHeight (img : Image) : Nat :=
  min img.height 480 / 2 - (min img.height 480 / 2) % img.pixelIncrementY

/-- Reference layout, step 5 with the reverse-index policy:
`(tilesY × tilesX − 1) − i`. -/
def specReverseSlotId (tilesX tilesY i : Nat) : Nat := (tilesY * tilesX - 1) - i

/-- The near-white pixels in raster order, as the specification words it: all
`(x, y)` inside the bitmap whose three channels are above 200, by `y` first and
then by `x`. -/
def specNearWhitePixels (bmp : Bitmap) : List (Nat × Nat) :=
  (List.range bmp.height).flatMap (fun y =>
    ((List.range bmp.width).filter (fun x => nearWhite (bmp.getPixel x y))).map
      (fun x => (x, y)))

/-- Raster order on coordinates `(x, y)`: by row, then by column. -/
def RasterLt (p q : Nat × Nat) : Prop := p.2 < q.2 ∨ (p.2 = q.2 ∧ p.1 < q.1)

/-! ## Arithmetic facts about the tile sizes -/

theorem u32sub_eq_sub {a b : Nat} (hb : b ≤ a) (ha : a < 2 ^ 32) : u32sub a b = a - b := by
  unfold u32sub
  have hb' : b % 2 ^ 32 = b := Nat.mod_eq_of_lt (by omega)
  rw [hb']
  omega

theorem u32sub_lt (a b : Nat) : u32sub a b < 2 ^ 32 := by
  unfold u32sub
  exact Nat.mod_lt _ (by norm_num)

theorem rawTileWidth_le (img : Image) : rawTileWidth img ≤ 213 := by
  unfold rawTileWidth cMaxWidth cNumTilesX
  omega

/-- Line 83 never wraps: the remainder is at most the value it is taken from. -/
theorem imageTileWidth_eq (img : Image) :
    imageTileWidth img = rawTileWidth img - rawTileWidth img % img.pixelIncrementX := by
  unfold imageTileWidth
  have h1 := rawTileWidth_le img
  exact u32sub_eq_sub (Nat.mod_le _ _) (by omega)

theorem imageTileWidth_le (img : Image) : imageTileWidth img ≤ rawTileWidth img := by
  rw [imageTileWidth_eq]; omega

theorem imageTileHeight_lt (img : Image) : imageTileHeight img < 2 ^ 32 :=
  u32sub_lt _ _

theorem getAoi_topLeftX (img : Image) (tx ty : Nat) (hx : tx < cNumTilesX) :
    (getAoi img tx ty).topLeftX = tx * imageTileWidth img := by
  have h1 := imageTileWidth_le img
  have h2 := rawTileWidth_le img
  have h3 : tx * imageTileWidth img ≤ 2 * 213 :=
    Nat.mul_le_mul (by unfold cNumTilesX at hx; omega) (by omega)
  show u32 (tx * imageTileWidth img) = _
  unfold u32
  exact Nat.mod_eq_of_lt (by omega)

theorem getAoi_topLeftY (img : Image) (tx ty : Nat) (hy : ty < cNumTilesY) :
    (getAoi img tx ty).topLeftY = ty * imageTileHeight img := by
  have h1 := imageTileHeight_lt img
  show u32 (ty * imageTileHeight img) = _
  unfold u32
  have : ty = 0 ∨ ty = 1 := by unfold cNumTilesY at hy; omega
  rcases this with rfl | rfl
  · simp
  · rw [Nat.one_mul]; exact Nat.mod_eq_of_lt h1

/-- The code's tile width is the reference width for every image. -/
theorem imageTileWidth_eq_spec (img : Image) :
    imageTileWidth img = specAlignedTileWidth img := by
  rw [imageTileWidth_eq]
  rfl

/-! ## The tile loop unrolled -/

theorem showTiles_eq (img : Image) (s : WindowState) :
    showTiles img s =
      tileBody img 2 1 (tileBody img 2 0 (tileBody img 1 1 (tileBody img 1 0
        (tileBody img 0 1 (tileBody img 0 0 s))))) := by
  simp [showTiles, forLoop, cNumTilesX, cNumTilesY]

theorem tileBody_log (img : Image) (tx ty : Nat) (s : WindowState) :
    (tileBody img tx ty s).log =
      s.log ++ [stepOf img tx ty (s.valid.getD (arrayIndex tx ty) false)] := by
  simp only [tileBody, stepOf]
  cases s.valid.getD (arrayIndex tx ty) false <;> rfl

theorem tileBody_valid (img : Image) (tx ty : Nat) (s : WindowState) :
    (tileBody img tx ty s).valid =
      if s.valid.getD (arrayIndex tx ty) false then s.valid
      else s.valid.set (arrayIndex tx ty) true := by
  simp only [tileBody]
  cases s.valid.getD (arrayIndex tx ty) false <;> rfl

/-- The cells, array indices and tiles of one image in the order of the loop,
whatever the window flags are. -/
theorem frameSteps_cells (img : Image) (valid : List Bool) :
    (frameSteps img valid).map (fun t => (t.indexTileX, t.indexTileY, t.arrayIndex, t.tile)) =
      [(0, 0, 0, getAoi img 0 0), (0, 1, 3, getAoi img 0 1), (1, 0, 1, getAoi img 1 0),
       (1, 1, 4, getAoi img 1 1), (2, 0, 2, getAoi img 2 0), (2, 1, 5, getAoi img 2 1)] := by
  unfold frameSteps
  rw [showTiles_eq]
  simp only [tileBody_log, List.map_append, List.map_cons, List.map_nil, List.nil_append,
    stepOf, List.cons_append]
  rfl

/-! ## Claims about the tile geometry -/

/-- C2: for a well-formed image, the tiles requested for two distinct cells of
the 3x2 grid have no pixel in common. -/
theorem tiles_disjoint (img : Image) (_hwf : img.WellFormed) (tx1 ty1 tx2 ty2 : Nat)
    (h1x : tx1 < cNumTilesX) (h1y : ty1 < cNumTilesY)
    (h2x : tx2 < cNumTilesX) (h2y : ty2 < cNumTilesY)
    (hne : (tx1, ty1) ≠ (tx2, ty2)) (x y : Nat) :
    ¬ ((getAoi img tx1 ty1).Contains x y ∧ (getAoi img tx2 ty2).Contains x y) := by
  rintro ⟨⟨ha1, ha2, ha3, ha4⟩, hb1, hb2, hb3, hb4⟩
  rw [getAoi_topLeftX img tx1 ty1 h1x] at ha1 ha2
  rw [getAoi_topLeftY img tx1 ty1 h1y] at ha3 ha4
  rw [getAoi_topLeftX img tx2 ty2 h2x] at hb1 hb2
  rw [getAoi_topLeftY img tx2 ty2 h2y] at hb3 hb4
  change _ < _ + imageTileWidth img at ha2
  change _ < _ + imageTileHeight img at ha4
  change _ < _ + imageTileWidth img at hb2
  change _ < _ + imageTileHeight img at hb4
  unfold cNumTilesX at h1x h2x
  unfold cNumTilesY at h1y h2y
  interval_cases tx1 <;> interval_cases tx2 <;> interval_cases ty1 <;> interval_cases ty2 <;>
    first
    | exact absurd rfl hne
    | omega

/-- C2 at a 640x480 image with increments 2 and 2: pixel (212, 0) is not in both
the tile of cell (0, 0) and the tile of cell (1, 0). -/
theorem tiles_disjoint_witness :
    Image.WellFormed ⟨640, 480, 2, 2⟩ ∧
    0 < cNumTilesX ∧ 0 < cNumTilesY ∧ 1 < cNumTilesX ∧ ((0, 0) : Nat × Nat) ≠ (1, 0) ∧
    ¬ ((getAoi ⟨640, 480, 2, 2⟩ 0 0).Contains 212 0 ∧
       (getAoi ⟨640, 480, 2, 2⟩ 1 0).Contains 212 0) :=
  ⟨by decide, by decide, by decide, by decide, by decide,
   tiles_disjoint ⟨640, 480, 2, 2⟩ (by decide) 0 0 1 0 (by decide) (by decide) (by decide)
     (by decide) (by decide) 212 0⟩

/-- C3, at the image where the code misses the alignment: for a 640x478 image
with pixel increments 2 and 2 the tile width is 212 (a multiple of 2), line 84
subtracts `212 % 2 = 0` from the raw tile height 239, and the tile height stays
239, which is not a multiple of the increment 2. -/
theorem tile_height_not_aligned :
    Image.WellFormed ⟨640, 478, 2, 2⟩ ∧
    imageTileWidth ⟨640, 478, 2, 2⟩ = 212 ∧
    rawTileHeight ⟨640, 478, 2, 2⟩ = 239 ∧
    imageTileHeight ⟨640, 478, 2, 2⟩ = 239 ∧
    ¬ ((⟨640, 478, 2, 2⟩ : Image).pixelIncrementY ∣ imageTileHeight ⟨640, 478, 2, 2⟩) := by
  decide

/-- C4, at the image where the code leaves the reference layout: for a 320x238
image with pixel increments 2 and 2 the code's tile width equals the reference
width 106, but the code's tile height is 119 while the reference height
`119 - 119 % 2` is 118, and the tile of cell (1, 1) starts at row 119 instead of
row 118. -/
theorem tile_height_differs_from_reference :
    Image.WellFormed ⟨320, 238, 2, 2⟩ ∧
    imageTileWidth ⟨320, 238, 2, 2⟩ = 106 ∧ specAlignedTileWidth ⟨320, 238, 2, 2⟩ = 106 ∧
    imageTileHeight ⟨320, 238, 2, 2⟩ = 119 ∧ specAlignedTileHeight ⟨320, 238, 2, 2⟩ = 118 ∧
    getAoi ⟨320, 238, 2, 2⟩ 1 1 = ⟨106, 119, 106, 119⟩ := by
  decide

/-- The worked example of the layout: a 640x480 image with increments 2 and 2
has raw tile 213x240 and aligned tile 212x240, in the code and in the reference. -/
theorem tile_size_example_640_480 :
    rawTileWidth ⟨640, 480, 2, 2⟩ = 213 ∧ rawTileHeight ⟨640, 480, 2, 2⟩ = 240 ∧
    imageTileWidth ⟨640, 480, 2, 2⟩ = 212 ∧ imageTileHeight ⟨640, 480, 2, 2⟩ = 240 ∧
    specAlignedTileWidth ⟨640, 480, 2, 2⟩ = 212 ∧
    specAlignedTileHeight ⟨640, 480, 2, 2⟩ = 240 := by
  decide

/-! ## Claims about the order of the tiles and the window indices -/

/-- C5 as stated fails: for a 1920x1200 image the second tile processed is the
cell with array index 3 and origin (0, 240), not the cell with index 1. -/
theorem tiles_not_row_major :
    (frameSteps ⟨1920, 1200, 1, 1⟩ imageWindows).map
        (fun t => (t.arrayIndex, t.tile.topLeftX, t.tile.topLeftY)) =
      [(0, 0, 0), (3, 0, 240), (1, 213, 0), (4, 213, 240), (2, 426, 0), (5, 426, 240)] ∧
    (frameSteps ⟨1920, 1200, 1, 1⟩ imageWindows).map (fun t => t.arrayIndex) ≠
      [0, 1, 2, 3, 4, 5] ∧
    (frameSteps ⟨1920, 1200, 1, 1⟩ imageWindows).map
        (fun t => (t.tile.topLeftX, t.tile.topLeftY)) ≠
      [(0, 0), (213, 0), (426, 0), (0, 240), (213, 240), (426, 240)] := by
  have h := frameSteps_cells ⟨1920, 1200, 1, 1⟩ imageWindows
  have h1 : (frameSteps ⟨1920, 1200, 1, 1⟩ imageWindows).map
      (fun t => (t.arrayIndex, t.tile.topLeftX, t.tile.topLeftY)) =
      ((frameSteps ⟨1920, 1200, 1, 1⟩ imageWindows).map
        (fun t => (t.indexTileX, t.indexTileY, t.arrayIndex, t.tile))).map
        (fun q => (q.2.2.1, q.2.2.2.topLeftX, q.2.2.2.topLeftY)) := by
    rw [List.map_map]; rfl
  have h2 : (frameSteps ⟨1920, 1200, 1, 1⟩ imageWindows).map (fun t => t.arrayIndex) =
      ((frameSteps ⟨1920, 1200, 1, 1⟩ imageWindows).map
        (fun t => (t.indexTileX, t.indexTileY, t.arrayIndex, t.tile))).map
        (fun q => q.2.2.1) := by
    rw [List.map_map]; rfl
  have h3 : (frameSteps ⟨1920, 1200, 1, 1⟩ imageWindows).map
      (fun t => (t.tile.topLeftX, t.tile.topLeftY)) =
      ((frameSteps ⟨1920, 1200, 1, 1⟩ imageWindows).map
        (fun t => (t.indexTileX, t.indexTileY, t.arrayIndex, t.tile))).map
        (fun q => (q.2.2.2.topLeftX, q.2.2.2.topLeftY)) := by
    rw [List.map_map]; rfl
  rw [h1, h2, h3, h]
  decide

/-- C5 as amended: for every image, whatever the window flags, the tiles are
processed with `indexTileX` as the outer and `indexTileY` as the inner loop: the
cells (0,0), (0,1), (1,0), (1,1), (2,0), (2,1) with array indices 0, 3, 1, 4, 2, 5
and origins (0,0), (0,H), (W,0), (W,H), (2W,0), (2W,H) for tile width W and tile
height H. -/
theorem tiles_column_major (img : Image) (valid : List Bool) :
    (frameSteps img valid).map
        (fun t => (t.indexTileX, t.indexTileY, t.arrayIndex, t.tile.topLeftX, t.tile.topLeftY)) =
      [(0, 0, 0, 0, 0),
       (0, 1, 3, 0, imageTileHeight img),
       (1, 0, 1, imageTileWidth img, 0),
       (1, 1, 4, imageTileWidth img, imageTileHeight img),
       (2, 0, 2, 2 * imageTileWidth img, 0),
       (2, 1, 5, 2 * imageTileWidth img, imageTileHeight img)] := by
  have h := frameSteps_cells img valid
  have h1 : (frameSteps img valid).map
      (fun t => (t.indexTileX, t.indexTileY, t.arrayIndex, t.tile.topLeftX, t.tile.topLeftY)) =
      ((frameSteps img valid).map
        (fun t => (t.indexTileX, t.indexTileY, t.arrayIndex, t.tile))).map
        (fun q => (q.1, q.2.1, q.2.2.1, q.2.2.2.topLeftX, q.2.2.2.topLeftY)) := by
    rw [List.map_map]; rfl
  rw [h1, h]
  simp only [List.map_cons, List.map_nil]
  rw [getAoi_topLeftX img 0 0 (by decide), getAoi_topLeftX img 0 1 (by decide),
    getAoi_topLeftX img 1 0 (by decide), getAoi_topLeftX img 1 1 (by decide),
    getAoi_topLeftX img 2 0 (by decide), getAoi_topLeftX img 2 1 (by decide),
    getAoi_topLeftY img 0 0 (by decide), getAoi_topLeftY img 0 1 (by decide),
    getAoi_topLeftY img 1 0 (by decide), getAoi_topLeftY img 1 1 (by decide),
    getAoi_topLeftY img 2 0 (by decide), getAoi_topLeftY img 2 1 (by decide)]
  simp

/-- C6 as stated fails: the cell with index 0 gets window index 31, while the
reverse-index formula `(tilesY * tilesX - 1) - i` gives 5; the cell with index 5
gets window index 26, not 0. -/
theorem windowIndex_not_reverse_of_cell_count :
    windowIndex 0 = 31 ∧ specReverseSlotId cNumTilesX cNumTilesY 0 = 5 ∧
    windowIndex 5 = 26 ∧ specReverseSlotId cNumTilesX cNumTilesY 5 = 0 ∧
    windowIndex 0 ≠ specReverseSlotId cNumTilesX cNumTilesY 0 := by
  decide

/-- C6 as amended: the window index of the cell with array index `i` (below
`cNumWindows = 6`) is `cMaxIndex - i = 31 - i`; index 0 maps to window 31 and
index 5 to window 26. -/
theorem windowIndex_eq_cMaxIndex_sub (i : Nat) (hi : i < cNumWindows) :
    windowIndex i = cMaxIndex - i ∧ cMaxIndex - i = 31 - i ∧
    windowIndex 0 = 31 ∧ windowIndex 5 = 26 := by
  have h6 : cNumWindows = 6 := by decide
  rw [h6] at hi
  interval_cases i <;> decide

/-- C6 as amended, at the cell with array index 3: window index 28. -/
theorem windowIndex_eq_cMaxIndex_sub_witness :
    3 < cNumWindows ∧
    (windowIndex 3 = cMaxIndex - 3 ∧ cMaxIndex - 3 = 31 - 3 ∧
      windowIndex 0 = 31 ∧ windowIndex 5 = 26) :=
  ⟨by decide, windowIndex_eq_cMaxIndex_sub 3 (by decide)⟩

/-- C7: the window index handed to `Create` depends on the cell only. For any
two images and any two cells of the 3x2 grid the two window indices agree exactly
when the cells are the same, and each lies in `0..cMaxIndex`. -/
theorem windowIndex_stable_injective (img1 img2 : Image) (tx1 ty1 tx2 ty2 : Nat)
    (h1x : tx1 < cNumTilesX) (h1y : ty1 < cNumTilesY)
    (h2x : tx2 < cNumTilesX) (h2y : ty2 < cNumTilesY) :
    ((createArgs img1 tx1 ty1).winIndex = (createArgs img2 tx2 ty2).winIndex ↔
      (tx1, ty1) = (tx2, ty2)) ∧
    (createArgs img1 tx1 ty1).winIndex ≤ cMaxIndex ∧
    (createArgs img2 tx2 ty2).winIndex ≤ cMaxIndex ∧ cMaxIndex = 31 := by
  show (windowIndex (arrayIndex tx1 ty1) = windowIndex (arrayIndex tx2 ty2) ↔ _) ∧
    windowIndex (arrayIndex tx1 ty1) ≤ cMaxIndex ∧
    windowIndex (arrayIndex tx2 ty2) ≤ cMaxIndex ∧ cMaxIndex = 31
  unfold cNumTilesX at h1x h2x
  unfold cNumTilesY at h1y h2y
  interval_cases tx1 <;> interval_cases tx2 <;> interval_cases ty1 <;> interval_cases ty2 <;>
    decide

/-- C7 at a 1920x1200 and a 640x478 image: cell (2, 1) of the first and cell
(0, 1) of the second get different window indices, both at most 31. -/
theorem windowIndex_stable_injective_witness :
    2 < cNumTilesX ∧ 1 < cNumTilesY ∧ 0 < cNumTilesX ∧
    ((createArgs ⟨1920, 1200, 1, 1⟩ 2 1).winIndex = (createArgs ⟨640, 478, 2, 2⟩ 0 1).winIndex ↔
      ((2, 1) : Nat × Nat) = (0, 1)) ∧
    (createArgs ⟨1920, 1200, 1, 1⟩ 2 1).winIndex ≤ cMaxIndex ∧
    (createArgs ⟨640, 478, 2, 2⟩ 0 1).winIndex ≤ cMaxIndex ∧ cMaxIndex = 31 :=
  ⟨by decide, by decide, by decide,
   windowIndex_stable_injective ⟨1920, 1200, 1, 1⟩ ⟨640, 478, 2, 2⟩ 2 1 0 1
     (by decide) (by decide) (by decide) (by decide)⟩

/-- C8 as stated fails: for a 2x2 image with increments 1 and 1 the tile width
is 0, and the loop still requests six tiles of width 0 from `GetAoi`. -/
theorem zero_width_tiles_requested :
    Image.WellFormed ⟨2, 2, 1, 1⟩ ∧ imageTileWidth ⟨2, 2, 1, 1⟩ = 0 ∧
    (frameSteps ⟨2, 2, 1, 1⟩ imageWindows).map (fun t => t.tile) =
      [⟨0, 0, 0, 1⟩, ⟨0, 1, 0, 1⟩, ⟨0, 0, 0, 1⟩, ⟨0, 1, 0, 1⟩, ⟨0, 0, 0, 1⟩, ⟨0, 1, 0, 1⟩] := by
  refine ⟨by decide, by decide, ?_⟩
  have h := frameSteps_cells ⟨2, 2, 1, 1⟩ imageWindows
  have h1 : (frameSteps ⟨2, 2, 1, 1⟩ imageWindows).map (fun t => t.tile) =
      ((frameSteps ⟨2, 2, 1, 1⟩ imageWindows).map
        (fun t => (t.indexTileX, t.indexTileY, t.arrayIndex, t.tile))).map
        (fun q => q.2.2.2) := by
    rw [List.map_map]; rfl
  rw [h1, h]
  decide

/-- C8 as amended: the tile computation has no failure path. When the division
and the truncation leave a tile width or a tile height of 0, the loop still
requests all six tiles, each with the computed width and height, so each with a
width or a height of 0. -/
theorem zero_size_tiles_still_requested (img : Image) (valid : List Bool)
    (h0 : imageTileWidth img = 0 ∨ imageTileHeight img = 0) :
    (frameSteps img valid).length = cNumWindows ∧
    ∀ t ∈ frameSteps img valid,
      t.tile.width = imageTileWidth img ∧ t.tile.height = imageTileHeight img ∧
      (t.tile.width = 0 ∨ t.tile.height = 0) := by
  have h := frameSteps_cells img valid
  have hlen : (frameSteps img valid).length = 6 := by
    have := congrArg List.length h
    simpa using this
  refine ⟨hlen, ?_⟩
  intro t ht
  have hmem : (t.indexTileX, t.indexTileY, t.arrayIndex, t.tile) ∈
      (frameSteps img valid).map (fun t => (t.indexTileX, t.indexTileY, t.arrayIndex, t.tile)) :=
    List.mem_map_of_mem _ ht
  rw [h] at hmem
  have hw : t.tile.width = imageTileWidth img ∧ t.tile.height = imageTileHeight img := by
    simp only [List.mem_cons, Prod.mk.injEq, List.mem_nil_iff, or_false] at hmem
    rcases hmem with h' | h' | h' | h' | h' | h' <;>
      (rw [h'.2.2.2]; exact ⟨rfl, rfl⟩)
  refine ⟨hw.1, hw.2, ?_⟩
  rw [hw.1, hw.2]
  exact h0

/-- C8 as amended, at a 2x2 image with increments 1 and 1, whose tile width
is 0. -/
theorem zero_size_tiles_still_requested_witness :
    (imageTileWidth ⟨2, 2, 1, 1⟩ = 0 ∨ imageTileHeight ⟨2, 2, 1, 1⟩ = 0) ∧
    ((frameSteps ⟨2, 2, 1, 1⟩ imageWindows).length = cNumWindows ∧
      ∀ t ∈ frameSteps ⟨2, 2, 1, 1⟩ imageWindows,
        t.tile.width = imageTileWidth ⟨2, 2, 1, 1⟩ ∧
        t.tile.height = imageTileHeight ⟨2, 2, 1, 1⟩ ∧
        (t.tile.width = 0 ∨ t.tile.height = 0)) :=
  ⟨Or.inl (by decide),
   zero_size_tiles_still_requested ⟨2, 2, 1, 1⟩ imageWindows (Or.inl (by decide))⟩

/-! ## Window creation over a sequence of images -/

theorem tileBody_valid_mono (img : Image) (tx ty : Nat) (s : WindowState) (i : Nat)
    (h : s.valid.getD i false = true) :
    (tileBody img tx ty s).valid.getD i false = true := by
  rw [tileBody_valid]
  split
  · exact h
  · rw [List.getD_eq_getElem?_getD] at h ⊢
    rw [List.getElem?_set]
    by_cases hij : arrayIndex tx ty = i
    · subst hij
      cases hv : s.valid[arrayIndex tx ty]? with
      | none => rw [hv] at h; simp at h
      | some b =>
        have hlt : arrayIndex tx ty < s.valid.length := by
          rcases List.getElem?_eq_some_iff.mp hv with ⟨hlt, _⟩
          exact hlt
        simp [hlt]
    · simp [hij, h]

/-- One image never clears a window flag. -/
theorem showTiles_valid_mono (img : Image) (valid : List Bool) (i : Nat)
    (h : valid.getD i false = true) :
    (showTiles img { valid := valid, log := [] }).valid.getD i false = true := by
  rw [showTiles_eq]
  exact tileBody_valid_mono _ _ _ _ _ (tileBody_valid_mono _ _ _ _ _
    (tileBody_valid_mono _ _ _ _ _ (tileBody_valid_mono _ _ _ _ _
      (tileBody_valid_mono _ _ _ _ _ (tileBody_valid_mono _ _ _ _ _ h)))))

/-- After the first image every window flag is set. -/
theorem showTiles_valid_first (img : Image) :
    (showTiles img { valid := imageWindows, log := [] }).valid =
      [true, true, true, true, true, true] := by
  rw [showTiles_eq]
  simp only [tileBody_valid]
  rfl

/-- Once every window flag is set, an image leaves the flags as they are. -/
theorem showTiles_valid_later (img : Image) :
    (showTiles img { valid := [true, true, true, true, true, true], log := [] }).valid =
      [true, true, true, true, true, true] := by
  rw [showTiles_eq]
  simp only [tileBody_valid]
  rfl

/-- The first image creates the window of each array element, in loop order. -/
theorem frameSteps_first (img : Image) :
    (frameSteps img imageWindows).map (fun t => (t.arrayIndex, t.windowCreated)) =
      [(0, true), (3, true), (1, true), (4, true), (2, true), (5, true)] := by
  unfold frameSteps
  rw [showTiles_eq]
  simp only [tileBody_log, tileBody_valid, List.map_append, List.map_cons, List.map_nil,
    List.nil_append, stepOf, List.cons_append]
  rfl

/-- Once every window flag is set, an image creates no window. -/
theorem frameSteps_later (img : Image) :
    (frameSteps img [true, true, true, true, true, true]).map
        (fun t => (t.windowCreated, t.created)) =
      [(false, none), (false, none), (false, none), (false, none), (false, none),
       (false, none)] := by
  unfold frameSteps
  rw [showTiles_eq]
  simp only [tileBody_log, tileBody_valid, List.map_append, List.map_cons, List.map_nil,
    List.nil_append, stepOf, List.cons_append]
  rfl

theorem grabLoop_later (rest : List Image) :
    ∀ steps ∈ grabLoop rest [true, true, true, true, true, true],
      ∀ t ∈ steps, t.windowCreated = false ∧ t.created = none := by
  induction rest with
  | nil => intro steps hs; simp [grabLoop] at hs
  | cons img rest ih =>
    intro steps hs t ht
    simp only [grabLoop, List.mem_cons] at hs
    rcases hs with rfl | hs
    · have hmem : (t.windowCreated, t.created) ∈
          (frameSteps img [true, true, true, true, true, true]).map
            (fun t => (t.windowCreated, t.created)) := List.mem_map_of_mem _ ht
      rw [frameSteps_later] at hmem
      simp only [List.mem_cons, Prod.mk.injEq, List.mem_nil_iff, or_false, or_self] at hmem
      exact hmem
    · rw [showTiles_valid_later] at hs
      exact ih steps hs t ht

theorem createCount_later (slot : Nat) (rest : List Image) :
    createCount slot (grabLoop rest [true, true, true, true, true, true]) = 0 := by
  unfold createCount
  rw [List.length_eq_zero, List.filter_eq_nil_iff]
  intro t ht
  rw [List.mem_flatten] at ht
  obtain ⟨steps, hs, ht⟩ := ht
  have := (grabLoop_later rest steps hs t ht).1
  simp [this]

theorem createCount_first (img : Image) (slot : Nat) (hs : slot < cNumWindows) :
    createCount slot [frameSteps img imageWindows] = 1 := by
  unfold createCount
  have h := frameSteps_first img
  have hf : ∀ l : List TileStep,
      (l.filter (fun t => decide (t.arrayIndex = slot) && t.windowCreated)).length =
      ((l.map (fun t => (t.arrayIndex, t.windowCreated))).filter
        (fun q => decide (q.1 = slot) && q.2)).length := by
    intro l
    induction l with
    | nil => rfl
    | cons a l ih =>
      simp only [List.filter_cons, List.map_cons]
      split <;> simp [ih]
  rw [List.flatten_cons, List.flatten_nil, List.append_nil, hf, h]
  have h6 : cNumWindows = 6 := by decide
  rw [h6] at hs
  interval_cases slot <;> decide

theorem createCount_cons (slot : Nat) (steps : List TileStep) (frames : List (List TileStep)) :
    createCount slot (steps :: frames) = createCount slot [steps] + createCount slot frames := by
  unfold createCount
  simp [List.flatten_cons, List.filter_append]

theorem grabLoop_cons_first (img : Image) (rest : List Image) :
    grabLoop (img :: rest) imageWindows =
      frameSteps img imageWindows :: grabLoop rest [true, true, true, true, true, true] := by
  show (showTiles img { valid := imageWindows, log := [] }).log ::
      grabLoop rest (showTiles img { valid := imageWindows, log := [] }).valid = _
  rw [showTiles_valid_first]
  rfl

theorem grabLoopValid_append (imgs : List Image) (img : Image) (valid : List Bool) :
    grabLoopValid (imgs ++ [img]) valid =
      (showTiles img { valid := grabLoopValid imgs valid, log := [] }).valid := by
  induction imgs generalizing valid with
  | nil => rfl
  | cons a imgs ih => exact ih _

/-- C9: starting from the array of windows none of which is valid, over any
non-empty sequence of successfully grabbed images the window of each of the six
array elements is created exactly once, by the first image, and by no later
image; and a window flag that is set after some images is still set after one
more image. -/
theorem window_created_exactly_once (img : Image) (rest : List Image) (slot : Nat)
    (hs : slot < cNumWindows) :
    createCount slot (grabLoop (img :: rest) imageWindows) = 1 ∧
    (grabLoop (img :: rest) imageWindows).head? = some (frameSteps img imageWindows) ∧
    createCount slot [frameSteps img imageWindows] = 1 ∧
    (∀ steps ∈ (grabLoop (img :: rest) imageWindows).tail,
      ∀ t ∈ steps, t.windowCreated = false ∧ t.created = none) ∧
    (∀ (imgs : List Image) (next : Image) (i : Nat),
      (grabLoopValid imgs imageWindows).getD i false = true →
      (grabLoopValid (imgs ++ [next]) imageWindows).getD i false = true) := by
  rw [grabLoop_cons_first]
  refine ⟨?_, rfl, createCount_first img slot hs, ?_, ?_⟩
  · rw [createCount_cons, createCount_first img slot hs, createCount_later]
  · intro steps hsteps
    exact grabLoop_later rest steps hsteps
  · intro imgs next i h
    rw [grabLoopValid_append]
    exact showTiles_valid_mono next _ i h

/-- C9 at a 640x480 image followed by a 1920x1200 image, for the array
element 4. -/
theorem window_created_exactly_once_witness :
    4 < cNumWindows ∧
    (createCount 4 (grabLoop [⟨640, 480, 2, 2⟩, ⟨1920, 1200, 1, 1⟩] imageWindows) = 1 ∧
     (grabLoop [⟨640, 480, 2, 2⟩, ⟨1920, 1200, 1, 1⟩] imageWindows).head? =
       some (frameSteps ⟨640, 480, 2, 2⟩ imageWindows) ∧
     createCount 4 [frameSteps ⟨640, 480, 2, 2⟩ imageWindows] = 1 ∧
     (∀ steps ∈ (grabLoop [⟨640, 480, 2, 2⟩, ⟨1920, 1200, 1, 1⟩] imageWindows).tail,
       ∀ t ∈ steps, t.windowCreated = false ∧ t.created = none) ∧
     (∀ (imgs : List Image) (next : Image) (i : Nat),
       (grabLoopValid imgs imageWindows).getD i false = true →
       (grabLoopValid (imgs ++ [next]) imageWindows).getD i false = true)) :=
  ⟨by decide,
   window_created_exactly_once ⟨640, 480, 2, 2⟩ [⟨1920, 1200, 1, 1⟩] 4 (by decide)⟩

/-! ## The bitmap scan -/

theorem forLoop_eq_foldl {σ : Type} (n : Nat) (body : Nat → σ → σ) (i : Nat) (s : σ) :
    forLoop n body i s = (List.range' i (n - i)).foldl (fun acc j => body j acc) s := by
  generalize hk : n - i = k
  induction k generalizing i s with
  | zero =>
    rw [forLoop, if_neg (by omega)]
    rfl
  | succ k ih =>
    rw [forLoop, if_pos (by omega), ih (i + 1) (body i s) (by omega), List.range'_succ]
    rfl

theorem foldl_row (q : Nat → Bool) (y : Nat) (xs : List Nat) (out : List (Nat × Nat)) :
    xs.foldl (fun acc x => if q x then acc ++ [(x, y)] else acc) out =
      out ++ (xs.filter q).map (fun x => (x, y)) := by
  induction xs generalizing out with
  | nil => simp
  | cons x xs ih =>
    rw [List.foldl_cons, ih]
    cases h : q x <;> simp [h]

theorem foldl_rows (row : Nat → List (Nat × Nat)) (ys : List Nat) (out : List (Nat × Nat)) :
    ys.foldl (fun acc y => acc ++ row y) out = out ++ ys.flatMap row := by
  induction ys generalizing out with
  | nil => simp
  | cons y ys ih =>
    rw [List.foldl_cons, ih]
    simp [List.flatMap_cons]

theorem findOnePoint_eq_spec (bmp : Bitmap) : findOnePoint bmp = specNearWhitePixels bmp := by
  unfold findOnePoint specNearWhitePixels
  rw [forLoop_eq_foldl]
  have hrow : (fun (acc : List (Nat × Nat)) (y : Nat) =>
        forLoop bmp.width
          (fun x out => if nearWhite (bmp.getPixel x y) then out ++ [(x, y)] else out) 0 acc) =
      (fun acc y => acc ++
        ((List.range bmp.width).filter (fun x => nearWhite (bmp.getPixel x y))).map
          (fun x => (x, y))) := by
    funext acc y
    rw [forLoop_eq_foldl, foldl_row (fun x => nearWhite (bmp.getPixel x y)),
      Nat.sub_zero, List.range_eq_range']
  rw [hrow, foldl_rows, Nat.sub_zero, List.nil_append]
  simp only [List.range_eq_range']

theorem mem_specNearWhitePixels (bmp : Bitmap) (x y : Nat) :
    (x, y) ∈ specNearWhitePixels bmp ↔
      x < bmp.width ∧ y < bmp.height ∧ nearWhite (bmp.getPixel x y) = true := by
  unfold specNearWhitePixels
  simp only [List.mem_flatMap, List.mem_map, List.mem_filter, List.mem_range, Prod.mk.injEq]
  constructor
  · rintro ⟨y', hy', x', ⟨hx', hq⟩, rfl, rfl⟩
    exact ⟨hx', hy', hq⟩
  · rintro ⟨hx, hy, hq⟩
    exact ⟨y, hy, x, ⟨hx, hq⟩, rfl, rfl⟩

theorem pairwise_specNearWhitePixels (bmp : Bitmap) :
    (specNearWhitePixels bmp).Pairwise RasterLt := by
  unfold specNearWhitePixels
  simp only [List.range_eq_range']
  rw [List.pairwise_flatMap]
  constructor
  · intro y _
    rw [List.pairwise_map]
    apply List.Pairwise.filter
    exact (List.pairwise_lt_range' 0 bmp.width).imp (fun h => Or.inr ⟨rfl, h⟩)
  · refine (List.pairwise_lt_range' 0 bmp.height).imp ?_
    intro y1 y2 hlt p hp q hq
    simp only [List.mem_map] at hp hq
    obtain ⟨_, _, rfl⟩ := hp
    obtain ⟨_, _, rfl⟩ := hq
    exact Or.inl hlt

/-- C10: for every bitmap the coordinates printed by the scan are exactly the
pixels inside the bitmap whose red, green and blue channels are each strictly
above 200; they come in raster order (by `y`, then by `x`), so each is printed
once; and the output is the list the specification describes. -/
theorem findOnePoint_reports_near_white (bmp : Bitmap) :
    (∀ x y, (x, y) ∈ findOnePoint bmp ↔
      x < bmp.width ∧ y < bmp.height ∧
      200 < (bmp.getPixel x y).red ∧ 200 < (bmp.getPixel x y).green ∧
      200 < (bmp.getPixel x y).blue) ∧
    (findOnePoint bmp).Pairwise RasterLt ∧
    (findOnePoint bmp).Nodup ∧
    findOnePoint bmp = specNearWhitePixels bmp := by
  rw [findOnePoint_eq_spec]
  refine ⟨?_, pairwise_specNearWhitePixels bmp, ?_, rfl⟩
  · intro x y
    rw [mem_specNearWhitePixels]
    simp [nearWhite, and_assoc]
  · refine (pairwise_specNearWhitePixels bmp).imp ?_
    intro p q h heq
    subst heq
    rcases h with h | ⟨_, h⟩ <;> exact Nat.lt_irrefl _ h

/-- A 3x2 bitmap whose pixel (1, 0) has a red channel of exactly 200 and whose
pixel (2, 1) has a blue channel of 0: the other four pixels are printed, row 0
before row 1. -/
theorem findOnePoint_example :
    findOnePoint
      { width := 3, height := 2,
        getPixel := fun x y =>
          if x = 1 ∧ y = 0 then ⟨200, 255, 255⟩
          else if x = 2 ∧ y = 1 then ⟨255, 255, 0⟩
          else ⟨201, 201, 201⟩ } =
      [(0, 0), (2, 0), (0, 1), (1, 1)] := by
  simp [findOnePoint, forLoop, nearWhite]

/-! ## The contour loop -/

theorem foldl_skip_or_emit {β γ : Type} (skip : β → Prop) [DecidablePred skip] (f : β → γ)
    (xs : List β) (out : List γ) :
    xs.foldl (fun acc x => if skip x then acc else acc ++ [f x]) out =
      out ++ (xs.filter (fun x => !decide (skip x))).map f := by
  induction xs generalizing out with
  | nil => simp
  | cons x xs ih =>
    rw [List.foldl_cons, ih]
    by_cases h : skip x <;> simp [h]

/-- The loop reports, in the order of `contours`, the indices that are not
skipped; area and perimeter are taken from `contours[i]`, the printed contour
from `contours[0]`. -/
theorem contourLoop_eq {α : Type} (ops : CvOps α) (cols : Int) (contours : List Contour) :
    contourLoop ops cols contours =
      ((List.range contours.length).filter
          (fun i => !decide (ops.boundingRectWidth (contours.getD i []) < Int.tdiv cols 2))).map
        (fun i => { index := i,
                    area := ops.contourArea (contours.getD i []),
                    length := ops.arcLength (contours.getD i []),
                    printed := contours.getD 0 [] }) := by
  unfold contourLoop
  rw [forLoop_eq_foldl,
    foldl_skip_or_emit (fun i => ops.boundingRectWidth (contours.getD i []) < Int.tdiv cols 2),
    Nat.sub_zero, List.nil_append, List.range_eq_range']

/-- A contour is reported exactly when its index is in range and its bounding
width is at least `cols / 2`. -/
theorem contourLoop_reported_iff {α : Type} (ops : CvOps α) (cols : Int)
    (contours : List Contour) (i : Nat) :
    (∃ r ∈ contourLoop ops cols contours, r.index = i) ↔
      i < contours.length ∧ Int.tdiv cols 2 ≤ ops.boundingRectWidth (contours.getD i []) := by
  rw [contourLoop_eq]
  simp only [List.mem_map, List.mem_filter, List.mem_range, Bool.not_eq_true',
    decide_eq_false_iff_not, Int.not_lt]
  constructor
  · rintro ⟨r, ⟨j, ⟨hj, hw⟩, rfl⟩, rfl⟩
    exact ⟨hj, hw⟩
  · rintro ⟨hi, hw⟩
    exact ⟨_, ⟨i, ⟨hi, hw⟩, rfl⟩, rfl⟩

/-- Area and perimeter of a report are those of the reported contour; the
printed contour is always the first element of `contours`. -/
theorem contourLoop_fields {α : Type} (ops : CvOps α) (cols : Int) (contours : List Contour)
    (r : ContourReport α) (hr : r ∈ contourLoop ops cols contours) :
    r.area = ops.contourArea (contours.getD r.index []) ∧
    r.length = ops.arcLength (contours.getD r.index []) ∧
    r.printed = contours.getD 0 [] := by
  rw [contourLoop_eq] at hr
  simp only [List.mem_map] at hr
  obtain ⟨j, _, rfl⟩ := hr
  exact ⟨rfl, rfl, rfl⟩

/-- C11, at the input where the code prints the wrong contour: with `cols = 10`
and two contours, the first of bounding width 2 and the second of bounding width
10, only the second contour (index 1) is reported, its area and perimeter are
those of `contours[1]`, but the coordinates written to `cout` are those of
`contours[0]`, a different contour. -/
theorem contour_report_prints_first_contour :
    spanWidth [⟨0, 0⟩, ⟨1, 0⟩, ⟨1, 1⟩] = 2 ∧ spanWidth [⟨0, 0⟩, ⟨9, 0⟩, ⟨9, 9⟩] = 10 ∧
    Int.tdiv 10 2 = 5 ∧
    contourLoop exampleOps 10 [[⟨0, 0⟩, ⟨1, 0⟩, ⟨1, 1⟩], [⟨0, 0⟩, ⟨9, 0⟩, ⟨9, 9⟩]] =
      [{ index := 1,
         area := [⟨0, 0⟩, ⟨9, 0⟩, ⟨9, 9⟩],
         length := [⟨0, 0⟩, ⟨9, 0⟩, ⟨9, 9⟩],
         printed := [⟨0, 0⟩, ⟨1, 0⟩, ⟨1, 1⟩] }] ∧
    ([⟨0, 0⟩, ⟨1, 0⟩, ⟨1, 1⟩] : Contour) ≠ [⟨0, 0⟩, ⟨9, 0⟩, ⟨9, 9⟩] := by
  refine ⟨by decide, by decide, by decide, ?_, by decide⟩
  rw [contourLoop_eq]
  decide

/-! ## Indexing of the window array -/

/-- C12: for every cell of the 3x2 grid the array index `ty * 3 + tx` is below
`cNumWindows = 6`, the size of `imageWindows`; two cells with the same index are
the same cell and every index below 6 belongs to a cell; and for every image
each of the six array elements is used by exactly one pass of the loop body,
with no index outside the array. -/
theorem arrayIndex_bijective (tx ty : Nat) (hx : tx < cNumTilesX) (hy : ty < cNumTilesY) :
    arrayIndex tx ty = ty * 3 + tx ∧
    arrayIndex tx ty < cNumWindows ∧ cNumWindows = 6 ∧ imageWindows.length = cNumWindows ∧
    (∀ tx2 ty2, tx2 < cNumTilesX → ty2 < cNumTilesY →
      arrayIndex tx2 ty2 = arrayIndex tx ty → (tx2, ty2) = (tx, ty)) ∧
    (∀ i, i < cNumWindows →
      ∃ tx2 ty2, tx2 < cNumTilesX ∧ ty2 < cNumTilesY ∧ arrayIndex tx2 ty2 = i) ∧
    (∀ (img : Image) (valid : List Bool) (i : Nat), i < cNumWindows →
      ((frameSteps img valid).filter (fun t => decide (t.arrayIndex = i))).length = 1) ∧
    (∀ (img : Image) (valid : List Bool), ∀ t ∈ frameSteps img valid,
      t.arrayIndex = arrayIndex t.indexTileX t.indexTileY ∧ t.arrayIndex < cNumWindows) := by
  have h6 : cNumWindows = 6 := by decide
  have hcells : ∀ (img : Image) (valid : List Bool),
      (frameSteps img valid).map (fun t => (t.indexTileX, t.indexTileY, t.arrayIndex)) =
        [(0, 0, 0), (0, 1, 3), (1, 0, 1), (1, 1, 4), (2, 0, 2), (2, 1, 5)] := by
    intro img valid
    have h := congrArg (List.map (fun q : Nat × Nat × Nat × Aoi => (q.1, q.2.1, q.2.2.1)))
      (frameSteps_cells img valid)
    rw [List.map_map] at h
    exact h
  unfold cNumTilesX at hx
  unfold cNumTilesY at hy
  refine ⟨?_, ?_, h6, by decide, ?_, ?_, ?_, ?_⟩
  · interval_cases tx <;> interval_cases ty <;> decide
  · interval_cases tx <;> interval_cases ty <;> decide
  · intro tx2 ty2 hx2 hy2
    unfold cNumTilesX at hx2
    unfold cNumTilesY at hy2
    interval_cases tx <;> interval_cases ty <;> interval_cases tx2 <;> interval_cases ty2 <;>
      decide
  · intro i hi
    rw [h6] at hi
    interval_cases i
    · exact ⟨0, 0, by decide, by decide, by decide⟩
    · exact ⟨1, 0, by decide, by decide, by decide⟩
    · exact ⟨2, 0, by decide, by decide, by decide⟩
    · exact ⟨0, 1, by decide, by decide, by decide⟩
    · exact ⟨1, 1, by decide, by decide, by decide⟩
    · exact ⟨2, 1, by decide, by decide, by decide⟩
  · intro img valid i hi
    have hf : ∀ l : List TileStep,
        (l.filter (fun t => decide (t.arrayIndex = i))).length =
        ((l.map (fun t => (t.indexTileX, t.indexTileY, t.arrayIndex))).filter
          (fun q => decide (q.2.2 = i))).length := by
      intro l
      induction l with
      | nil => rfl
      | cons a l ih =>
        simp only [List.filter_cons, List.map_cons]
        split <;> simp [ih]
    rw [hf, hcells]
    rw [h6] at hi
    interval_cases i <;> decide
  · intro img valid t ht
    have hmem : (t.indexTileX, t.indexTileY, t.arrayIndex) ∈
        (frameSteps img valid).map (fun t => (t.indexTileX, t.indexTileY, t.arrayIndex)) :=
      List.mem_map_of_mem _ ht
    rw [hcells] at hmem
    simp only [List.mem_cons, Prod.mk.injEq, List.mem_nil_iff, or_false] at hmem
    rcases hmem with h | h | h | h | h | h <;>
      (obtain ⟨h1, h2, h3⟩ := h; rw [h1, h2, h3]; decide)

/-- C12 at the cell (2, 1): array index 5, the last element of the array. -/
theorem arrayIndex_bijective_witness :
    2 < cNumTilesX ∧ 1 < cNumTilesY ∧
    (arrayIndex 2 1 = 1 * 3 + 2 ∧
     arrayIndex 2 1 < cNumWindows ∧ cNumWindows = 6 ∧ imageWindows.length = cNumWindows ∧
     (∀ tx2 ty2, tx2 < cNumTilesX → ty2 < cNumTilesY →
       arrayIndex tx2 ty2 = arrayIndex 2 1 → (tx2, ty2) = (2, 1)) ∧
     (∀ i, i < cNumWindows →
       ∃ tx2 ty2, tx2 < cNumTilesX ∧ ty2 < cNumTilesY ∧ arrayIndex tx2 ty2 = i) ∧
     (∀ (img : Image) (valid : List Bool) (i : Nat), i < cNumWindows →
       ((frameSteps img valid).filter (fun t => decide (t.arrayIndex = i))).length = 1) ∧
     (∀ (img : Image) (valid : List Bool), ∀ t ∈ frameSteps img valid,
       t.arrayIndex = arrayIndex t.indexTileX t.indexTileY ∧ t.arrayIndex < cNumWindows)) :=
  ⟨by decide, by decide, arrayIndex_bijective 2 1 (by decide) (by decide)⟩

end BaslerSdk
